import Mathlib

/-!
Shallow embedding of the interactive map-rendering engine of the
climate-visualized repository (files `src/unnamed/part_006` (shared helpers)
and `src/unnamed/part_011` (the map engine)), together with theorems settling
the specification claims about it.

Conventions of the embedding:
* JavaScript numbers are idealised as rationals (`ℚ`); `Number.isFinite`
  failures (NaN / Infinity produced by degenerate inputs) are modelled by
  `Option ℚ` coordinates, `none` standing for a non-finite value.
* Stateful module-level variables are passed explicitly as state records.
* External d3 helpers (`d3.quadtree().find`, `geoEquirectangular().fitExtent`)
  are modelled from their documented algorithms; every repository function is
  translated line by line from the source.
-/

namespace ClimateVis

/-! ### Viewport transform (`STATE.zoomTransform`: `{x, y, k}`) -/

structure Transform where
  x : ℚ
  y : ℚ
  k : ℚ
deriving DecidableEq

/-- A climate station datum.  `px`/`py` are the cached projected coordinates
(`d.px`, `d.py` in the source); `none` models a missing / non-finite cache.
`kg_type` is the Köppen–Geiger classification code. -/
structure Station where
  lon : ℚ
  lat : ℚ
  px : Option ℚ
  py : Option ℚ
  kg_type : String
deriving DecidableEq

/-- Squared Euclidean distance between two points. -/
def dist2 (x1 y1 x2 y2 : ℚ) : ℚ := (x1 - x2) ^ 2 + (y1 - y2) ^ 2

/-! ### Screen-space quadtree (`part_006`, lines 90–124)

`buildQuadtree` stores one point per datum: the cached projected position
when it is finite, otherwise the freshly projected position.  The d3
quadtree itself is external library code; its `find(x, y, radius)` operation
is modelled from its documented behaviour: return the stored point closest
to the query whose distance is strictly below `radius` (an absent radius
searches unboundedly), ties resolved in favour of the earlier point. -/

structure IdxPt where
  x : ℚ
  y : ℚ
  d : Station
deriving DecidableEq

/-- Is the squared distance `dd` strictly inside the (optional) radius `r`?
`none` models the `Infinity` radius of d3's `find`. -/
def insideRadius (r : Option ℚ) (dd : ℚ) : Bool :=
  match r with
  | none => true
  | some rr => decide (dd < rr ^ 2)

/-- One accumulation step of the nearest-point search. -/
def nearestStep (qx qy : ℚ) (r : Option ℚ) (best : Option IdxPt) (p : IdxPt) :
    Option IdxPt :=
  match best with
  | none => if insideRadius r (dist2 p.x p.y qx qy) then some p else none
  | some b => if dist2 p.x p.y qx qy < dist2 b.x b.y qx qy then some p else some b

/-- Model of the external d3-quadtree `find(x, y, radius)`. -/
def quadtreeFind (pts : List IdxPt) (qx qy : ℚ) (r : Option ℚ) : Option IdxPt :=
  pts.foldl (nearestStep qx qy r) none

/-- The index coordinates used for a datum by `buildQuadtree`
(`part_006` lines 98–105): the cached `px`/`py` when finite, otherwise the
projection of `(lon, lat)`. -/
def indexPos (proj : ℚ → ℚ → ℚ × ℚ) (d : Station) : ℚ × ℚ :=
  match d.px, d.py with
  | some x, some y => (x, y)
  | _, _ => proj d.lon d.lat

/-- `buildQuadtree` (`part_006` lines 92–111): the stored point set of the
screen-space quadtree. -/
def buildQuadtree (proj : ℚ → ℚ → ℚ × ℚ) (data : List Station) : List IdxPt :=
  data.map (fun d => ⟨(indexPos proj d).1, (indexPos proj d).2, d⟩)

/-- `findNearestScreen(sx, sy, maxPixelRadius)` (`part_006` lines 115–124).
The pointer position is pulled back into index space through the current
zoom transform, and the pixel radius is divided by the scale; the JS
expression `(maxPixelRadius / t.k) || Infinity` turns a zero (or NaN)
converted radius into an unbounded search, modelled by the `none` radius. -/
def findNearestScreen (pts : List IdxPt) (t : Transform) (sx sy maxPixelRadius : ℚ) :
    Option Station :=
  let ux := (sx - t.x) / t.k
  let uy := (sy - t.y) / t.k
  let rq := maxPixelRadius / t.k
  let r : Option ℚ := if rq = 0 then none else some rq
  (quadtreeFind pts ux uy r).map (fun p => p.d)

/-- One accumulation step of the spec-side brute-force scan: the candidate
station's screen position is its index position pushed through the current
transform, and it replaces the best station so far exactly when strictly
closer to the pointer in screen pixels. -/
def bruteStep (proj : ℚ → ℚ → ℚ × ℚ) (t : Transform) (sx sy maxR : ℚ)
    (best : Option Station) (d : Station) : Option Station :=
  let p := indexPos proj d
  let dd := dist2 (p.1 * t.k + t.x) (p.2 * t.k + t.y) sx sy
  match best with
  | none => if dd < maxR ^ 2 then some d else none
  | some b =>
    let q := indexPos proj b
    if dd < dist2 (q.1 * t.k + t.x) (q.2 * t.k + t.y) sx sy then some d
    else some b

/-- Brute-force reference scan, written from the spec's words (testable
property for `queryNearest`): project every station to the screen through the
current transform, and return the closest station strictly within
`maxR` screen pixels of the pointer, or `none` when no station lies within
it; ties resolved in favour of the earlier station. -/
def bruteForceNearestScreen (proj : ℚ → ℚ → ℚ × ℚ) (data : List Station)
    (t : Transform) (sx sy maxR : ℚ) : Option Station :=
  data.foldl (bruteStep proj t sx sy maxR) none

/-! ### Glyph radius normalisation (`part_006` lines 36–54) -/

def TEMP_MIN : ℚ := -63.9375
def TEMP_MAX : ℚ := 39.0
def PRECIP_MAX : ℚ := 1519.375

/-- `tempToR(t)` (`part_006` lines 36–40): linear normalisation of a monthly
temperature against the fixed global min/max. -/
def tempToR (t : ℚ) : ℚ := (t - TEMP_MIN) / (TEMP_MAX - TEMP_MIN)

/-- `precipToR(p)` (`part_006` lines 44–54): clamp to `[0, PRECIP_MAX]`,
normalise, pass through the fixed three-segment piecewise-linear curve, and
rescale into `[R_MIN, R_MAX]`. -/
def precipToR (p : ℚ) : ℚ :=
  let X1 : ℚ := 0.10
  let X2 : ℚ := 0.90
  let Y1 : ℚ := 0.20
  let Y2 : ℚ := 0.80
  let R_MIN : ℚ := 0.10
  let R_MAX : ℚ := 1
  let x := min PRECIP_MAX (max 0 p) / PRECIP_MAX
  let y := if x < X1 then Y1 / X1 * x
    else if X2 < x then Y2 + (1 - Y2) / (1 - X2) * (x - X2)
    else Y1 + (Y2 - Y1) / (X2 - X1) * (x - X1)
  R_MIN + (R_MAX - R_MIN) * y

/-! ### Helper lemmas for the radius functions -/

/-- The three-segment piecewise-linear curve of `precipToR`, with its
constants folded (Y1/X1 = 2, (1-Y2)/(1-X2) = 2, (Y2-Y1)/(X2-X1) = 3/4). -/
def yCurve (x : ℚ) : ℚ :=
  if x < 1/10 then 2 * x
  else if 9/10 < x then 4/5 + 2 * (x - 9/10)
  else 1/5 + 3/4 * (x - 1/10)

/-- The clamped, normalised precipitation argument of `precipToR`. -/
def clampX (p : ℚ) : ℚ := min PRECIP_MAX (max 0 p) / PRECIP_MAX

lemma clampX_nonneg (p : ℚ) : 0 ≤ clampX p := by
  unfold clampX
  have h1 : (0:ℚ) < PRECIP_MAX := by norm_num [PRECIP_MAX]
  have h2 : (0:ℚ) ≤ min PRECIP_MAX (max 0 p) := le_min (le_of_lt h1) (le_max_left _ _)
  positivity

lemma clampX_le_one (p : ℚ) : clampX p ≤ 1 := by
  unfold clampX
  have h1 : (0:ℚ) < PRECIP_MAX := by norm_num [PRECIP_MAX]
  have h2 : min PRECIP_MAX (max 0 p) ≤ PRECIP_MAX := min_le_left _ _
  calc min PRECIP_MAX (max 0 p) / PRECIP_MAX ≤ PRECIP_MAX / PRECIP_MAX := by
        exact div_le_div_of_nonneg_right h2 h1.le |>.trans_eq rfl
    _ = 1 := div_self (ne_of_gt h1)

lemma clampX_mono {p q : ℚ} (h : p ≤ q) : clampX p ≤ clampX q := by
  unfold clampX
  have h1 : (0:ℚ) < PRECIP_MAX := by norm_num [PRECIP_MAX]
  have h2 : min PRECIP_MAX (max 0 p) ≤ min PRECIP_MAX (max 0 q) :=
    min_le_min le_rfl (max_le_max le_rfl h)
  exact div_le_div_of_nonneg_right h2 h1.le |>.trans_eq rfl

lemma precipToR_eval (p : ℚ) : precipToR p = 1/10 + 9/10 * yCurve (clampX p) := by
  unfold precipToR yCurve clampX
  norm_num

lemma yCurve_mono {a b : ℚ} (h : a ≤ b) : yCurve a ≤ yCurve b := by
  unfold yCurve
  split_ifs <;> linarith

lemma yCurve_bounds {a : ℚ} (h0 : 0 ≤ a) (h1 : a ≤ 1) :
    0 ≤ yCurve a ∧ yCurve a ≤ 1 := by
  unfold yCurve
  split_ifs <;> constructor <;> linarith

/-- C7: the glyph radius normalisation functions are bounded and monotone.
`precipToR` (which clamps its input to `[0, PRECIP_MAX]` internally) always
lands in `[R_MIN, R_MAX] = [0.10, 1]` and is non-decreasing; `tempToR` maps
`[TEMP_MIN, TEMP_MAX]` into `[0, 1]` and is non-decreasing. -/
theorem precipToR_tempToR_bounded_monotone :
    (∀ p q : ℚ, p ≤ q → precipToR p ≤ precipToR q) ∧
    (∀ p : ℚ, 1/10 ≤ precipToR p ∧ precipToR p ≤ 1) ∧
    (∀ t u : ℚ, t ≤ u → tempToR t ≤ tempToR u) ∧
    (∀ t : ℚ, TEMP_MIN ≤ t → t ≤ TEMP_MAX → 0 ≤ tempToR t ∧ tempToR t ≤ 1) := by
  have hT : (0:ℚ) < TEMP_MAX - TEMP_MIN := by norm_num [TEMP_MIN, TEMP_MAX]
  refine ⟨fun p q h => ?_, fun p => ?_, fun t u h => ?_, fun t h1 h2 => ?_⟩
  · rw [precipToR_eval, precipToR_eval]
    have := yCurve_mono (clampX_mono (p := p) (q := q) h)
    linarith
  · rw [precipToR_eval]
    have h0 := clampX_nonneg p
    have h1 := clampX_le_one p
    have := yCurve_bounds (a := clampX p) h0 h1
    constructor <;> linarith [this.1, this.2]
  · unfold tempToR
    exact div_le_div_of_nonneg_right (by linarith) hT.le
  · unfold tempToR
    constructor
    · exact div_nonneg (by linarith) hT.le
    · rw [div_le_one hT]
      linarith

/-- Witness for C7 at concrete inputs. -/
theorem precipToR_tempToR_bounded_monotone_witness :
    (precipToR 0 ≤ precipToR 100) ∧
    (1/10 ≤ precipToR 500 ∧ precipToR 500 ≤ 1) ∧
    (tempToR (-10) ≤ tempToR 20) ∧
    (0 ≤ tempToR 0 ∧ tempToR 0 ≤ 1) :=
  ⟨precipToR_tempToR_bounded_monotone.1 0 100 (by norm_num),
   precipToR_tempToR_bounded_monotone.2.1 500,
   precipToR_tempToR_bounded_monotone.2.2.1 (-10) 20 (by norm_num),
   precipToR_tempToR_bounded_monotone.2.2.2 0 (by norm_num [TEMP_MIN])
     (by norm_num [TEMP_MAX])⟩

/-! ### C1 / C10: the spatial query against the brute-force reference -/

/-- The quadtree point built from a station. -/
def toIdx (proj : ℚ → ℚ → ℚ × ℚ) (d : Station) : IdxPt :=
  ⟨(indexPos proj d).1, (indexPos proj d).2, d⟩

lemma buildQuadtree_eq_map (proj : ℚ → ℚ → ℚ × ℚ) (data : List Station) :
    buildQuadtree proj data = data.map (toIdx proj) := rfl

/-- Distances in screen space are the squared scale times distances in index
space, once the pointer is pulled back through the transform. -/
lemma screen_dist2_eq (t : Transform) (hk : t.k ≠ 0) (a b sx sy : ℚ) :
    dist2 (a * t.k + t.x) (b * t.k + t.y) sx sy
      = t.k ^ 2 * dist2 a b ((sx - t.x) / t.k) ((sy - t.y) / t.k) := by
  unfold dist2
  field_simp
  ring

lemma radius_cond_iff {k R d2i : ℚ} (hk : 0 < k) :
    d2i < (R / k) ^ 2 ↔ k ^ 2 * d2i < R ^ 2 := by
  rw [div_pow, lt_div_iff (pow_pos hk 2), mul_comm]

lemma improve_cond_iff {k A B : ℚ} (hk : 0 < k) :
    A < B ↔ k ^ 2 * A < k ^ 2 * B :=
  (mul_lt_mul_left (pow_pos hk 2)).symm

lemma step_corr (proj : ℚ → ℚ → ℚ × ℚ) (t : Transform) (sx sy R : ℚ)
    (hk : 0 < t.k) (acc : Option Station) (d : Station) :
    nearestStep ((sx - t.x) / t.k) ((sy - t.y) / t.k) (some (R / t.k))
        (acc.map (toIdx proj)) (toIdx proj d)
      = (bruteStep proj t sx sy R acc d).map (toIdx proj) := by
  cases acc with
  | none =>
      simp only [Option.map_none, nearestStep, bruteStep, insideRadius, toIdx,
        decide_eq_true_eq]
      rw [screen_dist2_eq t (ne_of_gt hk)]
      rw [if_congr (radius_cond_iff hk) rfl rfl, apply_ite (Option.map (toIdx proj))]
      simp [toIdx]
  | some b =>
      simp only [Option.map_some, nearestStep, bruteStep, toIdx]
      rw [screen_dist2_eq t (ne_of_gt hk), screen_dist2_eq t (ne_of_gt hk)]
      rw [if_congr (improve_cond_iff hk).symm rfl rfl,
        apply_ite (Option.map (toIdx proj))]
      simp [toIdx]

lemma fold_corr (proj : ℚ → ℚ → ℚ × ℚ) (t : Transform) (sx sy R : ℚ)
    (hk : 0 < t.k) :
    ∀ (data : List Station) (acc : Option Station),
      List.foldl (nearestStep ((sx - t.x) / t.k) ((sy - t.y) / t.k) (some (R / t.k)))
          (acc.map (toIdx proj)) (data.map (toIdx proj))
        = (List.foldl (bruteStep proj t sx sy R) acc data).map (toIdx proj) := by
  intro data
  induction data with
  | nil => intro acc; rfl
  | cons d rest ih =>
      intro acc
      simp only [List.map_cons, List.foldl_cons]
      rw [step_corr proj t sx sy R hk acc d]
      exact ih _

/-- C1: for every station set, pointer position and positive pixel radius,
the quadtree query `findNearestScreen` returns exactly the station returned
by the brute-force linear scan that projects every station to the screen and
keeps the closest one within the radius (converted between coordinate
spaces by the current transform scale). -/
theorem findNearestScreen_eq_bruteForce (proj : ℚ → ℚ → ℚ × ℚ)
    (data : List Station) (t : Transform) (sx sy R : ℚ)
    (hk : 0 < t.k) (hR : 0 < R) :
    findNearestScreen (buildQuadtree proj data) t sx sy R
      = bruteForceNearestScreen proj data t sx sy R := by
  have hrq : R / t.k ≠ 0 := ne_of_gt (div_pos hR hk)
  simp only [findNearestScreen, quadtreeFind, bruteForceNearestScreen,
    buildQuadtree_eq_map, if_neg hrq]
  have h := fold_corr proj t sx sy R hk data none
  rw [show Option.map (toIdx proj) none = none from rfl] at h
  rw [h]
  cases List.foldl (bruteStep proj t sx sy R) none data <;> rfl

/-- Witness for C1 on a concrete two-station set. -/
theorem findNearestScreen_eq_bruteForce_witness :
    findNearestScreen
        (buildQuadtree (fun lon lat => (lon, lat))
          [⟨0, 0, some 10, some 10, "Cfb"⟩, ⟨0, 0, some 50, some 60, "BWh"⟩])
        ⟨5, 5, 2⟩ 20 20 30
      = bruteForceNearestScreen (fun lon lat => (lon, lat))
          [⟨0, 0, some 10, some 10, "Cfb"⟩, ⟨0, 0, some 50, some 60, "BWh"⟩]
          ⟨5, 5, 2⟩ 20 20 30 :=
  findNearestScreen_eq_bruteForce _ _ _ _ _ _ (by norm_num) (by norm_num)

lemma foldl_nearestStep_some (qx qy : ℚ) (r : Option ℚ) (rest : List IdxPt) :
    ∀ b : IdxPt, ∃ c : IdxPt,
      List.foldl (nearestStep qx qy r) (some b) rest = some c := by
  induction rest with
  | nil => intro b; exact ⟨b, rfl⟩
  | cons p l ih =>
      intro b
      simp only [List.foldl_cons, nearestStep]
      split
      · exact ih _
      · exact ih _

lemma quadtreeFind_unbounded_isSome (pts : List IdxPt) (qx qy : ℚ)
    (h : pts ≠ []) : (quadtreeFind pts qx qy none).isSome = true := by
  cases pts with
  | nil => exact absurd rfl h
  | cons p rest =>
      unfold quadtreeFind
      simp only [List.foldl_cons, nearestStep, insideRadius, if_true]
      obtain ⟨c, hc⟩ := foldl_nearestStep_some qx qy none rest p
      rw [hc]
      rfl

/-- C10: calling `findNearestScreen` with `maxPixelRadius = 0` turns the
radius into the `Infinity` fallback of the expression
`(maxPixelRadius / t.k) || Infinity`, so the query searches unboundedly and
returns the nearest station no matter how far it is, never `null` on a
non-empty station set. -/
theorem findNearestScreen_zero_radius_unbounded (proj : ℚ → ℚ → ℚ × ℚ)
    (data : List Station) (t : Transform) (sx sy : ℚ)
    (hk : t.k ≠ 0) (hne : data ≠ []) :
    findNearestScreen (buildQuadtree proj data) t sx sy 0
        = (quadtreeFind (buildQuadtree proj data)
            ((sx - t.x) / t.k) ((sy - t.y) / t.k) none).map (fun p => p.d) ∧
      (findNearestScreen (buildQuadtree proj data) t sx sy 0).isSome = true := by
  have h0 : (0:ℚ) / t.k = 0 := zero_div _
  have hb : buildQuadtree proj data ≠ [] := by
    cases data with
    | nil => exact absurd rfl hne
    | cons d rest => simp [buildQuadtree]
  have hs := quadtreeFind_unbounded_isSome (buildQuadtree proj data)
    ((sx - t.x) / t.k) ((sy - t.y) / t.k) hb
  have heq : findNearestScreen (buildQuadtree proj data) t sx sy 0
      = (quadtreeFind (buildQuadtree proj data)
          ((sx - t.x) / t.k) ((sy - t.y) / t.k) none).map (fun p => p.d) := by
    simp [findNearestScreen, h0]
  refine ⟨heq, ?_⟩
  rw [heq]
  obtain ⟨c, hc⟩ := Option.isSome_iff_exists.mp hs
  rw [hc]
  rfl

/-- Witness for C10: a single station 1000 pixels away from the pointer is
still returned when the pixel radius is 0. -/
theorem findNearestScreen_zero_radius_unbounded_witness :
    (findNearestScreen
        (buildQuadtree (fun lon lat => (lon, lat))
          [⟨0, 0, some 1000, some 1000, "Cfb"⟩])
        ⟨0, 0, 1⟩ 0 0 0).isSome = true :=
  (findNearestScreen_zero_radius_unbounded (fun lon lat => (lon, lat))
    [⟨0, 0, some 1000, some 1000, "Cfb"⟩] ⟨0, 0, 1⟩ 0 0
    (by norm_num) (by simp)).2

/-! ### C2: pan/zoom constraint (`part_011` lines 945–980) -/

/-- `STATE.mapBounds`: the projected data bounds, already padded by the
symbol padding (`computeMapBounds`). -/
structure MapBounds where
  minX : ℚ
  maxX : ℚ
  minY : ℚ
  maxY : ℚ
deriving DecidableEq

/-- The overscroll margins computed inside `constrainTransform` (`part_011`
lines 949–960): ten degrees of longitude/latitude pushed through the
projection and scaled to pixels at the current zoom; zero without a
projection.  (The JS truthiness guard on the three projected points is
always satisfied for an equirectangular projection and is dropped.) -/
def overscrollOf (proj : Option (ℚ → ℚ → ℚ × ℚ)) (k : ℚ) : ℚ × ℚ :=
  match proj with
  | none => (0, 0)
  | some P => (|(P 10 0).1 - (P 0 0).1| * k, |(P 0 10).2 - (P 0 0).2| * k)

/-- `constrainTransform()` (`part_011` lines 945–980) as a pure function of
the engine state: clamp the pan so the padded bounds, expanded by the
overscroll margin, keep intersecting the viewport, or centre an axis whose
content is smaller than the viewport. -/
def constrainTransform (proj : Option (ℚ → ℚ → ℚ × ℚ)) (width height : ℚ)
    (b : MapBounds) (t : Transform) : Transform :=
  let k := t.k
  let os := overscrollOf proj k
  let w := (b.maxX - b.minX) * k
  let h := (b.maxY - b.minY) * k
  let minX := width - b.maxX * k - os.1
  let maxX := -b.minX * k + os.1
  let tx := if minX ≤ maxX then min maxX (max minX t.x)
    else (width - w) / 2 - b.minX * k
  let minY := height - b.maxY * k - os.2
  let maxY := -b.minY * k + os.2
  let ty := if minY ≤ maxY then min maxY (max minY t.y)
    else (height - h) / 2 - b.minY * k
  ⟨tx, ty, k⟩

lemma overscrollOf_nonneg (proj : Option (ℚ → ℚ → ℚ × ℚ)) {k : ℚ} (hk : 0 ≤ k) :
    0 ≤ (overscrollOf proj k).1 ∧ 0 ≤ (overscrollOf proj k).2 := by
  cases proj with
  | none => exact ⟨le_refl 0, le_refl 0⟩
  | some P =>
      exact ⟨mul_nonneg (abs_nonneg _) hk, mul_nonneg (abs_nonneg _) hk⟩

/-- Behaviour of one axis of the clamp: the expanded content segment keeps
intersecting `[0, size]`, and a content-plus-margin segment smaller than the
viewport is centred. -/
lemma clampAxis_spec (size k bmin bmax os tx : ℚ) (hs : 0 < size)
    (hb : bmin ≤ bmax) (hk : 0 < k) (hos : 0 ≤ os) :
    (bmin * k +
        (if size - bmax * k - os ≤ -bmin * k + os then
          min (-bmin * k + os) (max (size - bmax * k - os) tx)
        else (size - (bmax - bmin) * k) / 2 - bmin * k) - os ≤ size ∧
      0 ≤ bmax * k +
        (if size - bmax * k - os ≤ -bmin * k + os then
          min (-bmin * k + os) (max (size - bmax * k - os) tx)
        else (size - (bmax - bmin) * k) / 2 - bmin * k) + os) ∧
    ((bmax - bmin) * k + 2 * os < size →
      bmin * k +
          (if size - bmax * k - os ≤ -bmin * k + os then
            min (-bmin * k + os) (max (size - bmax * k - os) tx)
          else (size - (bmax - bmin) * k) / 2 - bmin * k) +
        (bmax * k +
          (if size - bmax * k - os ≤ -bmin * k + os then
            min (-bmin * k + os) (max (size - bmax * k - os) tx)
          else (size - (bmax - bmin) * k) / 2 - bmin * k)) = size) := by
  split_ifs with hcl
  · have h1 : size - bmax * k - os ≤
        min (-bmin * k + os) (max (size - bmax * k - os) tx) :=
      le_min hcl (le_max_left _ _)
    have h2 : min (-bmin * k + os) (max (size - bmax * k - os) tx) ≤
        -bmin * k + os := min_le_left _ _
    refine ⟨⟨by linarith, by linarith⟩, fun hsmall => ?_⟩
    linarith
  · push_neg at hcl
    have hck : 0 ≤ (bmax - bmin) * k := mul_nonneg (by linarith) hk.le
    refine ⟨⟨by linarith, by linarith⟩, fun _ => by ring⟩

/-- C2: after `constrainTransform`, on each axis the projected data-bounds
segment expanded by the overscroll margin intersects the viewport segment
(its left edge is left of the viewport's right edge and its right edge is
right of the viewport's left edge); and when the content plus margin is
smaller than the viewport on an axis, the content is centred on that axis.
Holds for every scale in `[1, 20]` and every non-degenerate bounds
rectangle. -/
theorem constrainTransform_keeps_bounds_visible
    (proj : Option (ℚ → ℚ → ℚ × ℚ)) (width height : ℚ) (b : MapBounds)
    (t : Transform) (hw : 0 < width) (hh : 0 < height)
    (hbx : b.minX ≤ b.maxX) (hby : b.minY ≤ b.maxY)
    (hk1 : 1 ≤ t.k) (hk2 : t.k ≤ 20) :
    (b.minX * t.k + (constrainTransform proj width height b t).x -
          (overscrollOf proj t.k).1 ≤ width ∧
        0 ≤ b.maxX * t.k + (constrainTransform proj width height b t).x +
          (overscrollOf proj t.k).1) ∧
      (b.minY * t.k + (constrainTransform proj width height b t).y -
          (overscrollOf proj t.k).2 ≤ height ∧
        0 ≤ b.maxY * t.k + (constrainTransform proj width height b t).y +
          (overscrollOf proj t.k).2) ∧
      ((b.maxX - b.minX) * t.k + 2 * (overscrollOf proj t.k).1 < width →
        b.minX * t.k + (constrainTransform proj width height b t).x +
          (b.maxX * t.k + (constrainTransform proj width height b t).x) = width) ∧
      ((b.maxY - b.minY) * t.k + 2 * (overscrollOf proj t.k).2 < height →
        b.minY * t.k + (constrainTransform proj width height b t).y +
          (b.maxY * t.k + (constrainTransform proj width height b t).y) = height) := by
  have hk : 0 < t.k := lt_of_lt_of_le one_pos hk1
  have hos := overscrollOf_nonneg proj hk.le
  have hX := clampAxis_spec width t.k b.minX b.maxX (overscrollOf proj t.k).1 t.x
    hw hbx hk hos.1
  have hY := clampAxis_spec height t.k b.minY b.maxY (overscrollOf proj t.k).2 t.y
    hh hby hk hos.2
  have ex : (constrainTransform proj width height b t).x =
      (if width - b.maxX * t.k - (overscrollOf proj t.k).1 ≤
          -b.minX * t.k + (overscrollOf proj t.k).1 then
        min (-b.minX * t.k + (overscrollOf proj t.k).1)
          (max (width - b.maxX * t.k - (overscrollOf proj t.k).1) t.x)
      else (width - (b.maxX - b.minX) * t.k) / 2 - b.minX * t.k) := rfl
  have ey : (constrainTransform proj width height b t).y =
      (if height - b.maxY * t.k - (overscrollOf proj t.k).2 ≤
          -b.minY * t.k + (overscrollOf proj t.k).2 then
        min (-b.minY * t.k + (overscrollOf proj t.k).2)
          (max (height - b.maxY * t.k - (overscrollOf proj t.k).2) t.y)
      else (height - (b.maxY - b.minY) * t.k) / 2 - b.minY * t.k) := rfl
  rw [ex, ey]
  exact ⟨hX.1, hY.1, hX.2, hY.2⟩

/-- Witness for C2 at a concrete state. -/
theorem constrainTransform_keeps_bounds_visible_witness :
    (let b : MapBounds := ⟨10, 300, 20, 200⟩
     let t : Transform := ⟨5000, -4000, 2⟩
     let proj : Option (ℚ → ℚ → ℚ × ℚ) := some (fun lon lat => (lon * 3, -lat * 3))
     (b.minX * t.k + (constrainTransform proj 800 600 b t).x -
          (overscrollOf proj t.k).1 ≤ 800 ∧
        0 ≤ b.maxX * t.k + (constrainTransform proj 800 600 b t).x +
          (overscrollOf proj t.k).1) ∧
      (b.minY * t.k + (constrainTransform proj 800 600 b t).y -
          (overscrollOf proj t.k).2 ≤ 600 ∧
        0 ≤ b.maxY * t.k + (constrainTransform proj 800 600 b t).y +
          (overscrollOf proj t.k).2) ∧
      ((b.maxX - b.minX) * t.k + 2 * (overscrollOf proj t.k).1 < 800 →
        b.minX * t.k + (constrainTransform proj 800 600 b t).x +
          (b.maxX * t.k + (constrainTransform proj 800 600 b t).x) = 800) ∧
      ((b.maxY - b.minY) * t.k + 2 * (overscrollOf proj t.k).2 < 600 →
        b.minY * t.k + (constrainTransform proj 800 600 b t).y +
          (b.maxY * t.k + (constrainTransform proj 800 600 b t).y) = 600)) :=
  constrainTransform_keeps_bounds_visible
    (some (fun lon lat => (lon * 3, -lat * 3))) 800 600 ⟨10, 300, 20, 200⟩
    ⟨5000, -4000, 2⟩ (by norm_num) (by norm_num) (by norm_num) (by norm_num)
    (by norm_num) (by norm_num)

/-! ### Tiered render cache (`part_011` lines 330–532, 1662–1671, 1737–1765)

The painted pixels of the offscreen buffers live outside the model; the
observable cache state is which buffers are allocated and which signature
each one stores.  Canvas/context allocation is one flag per tier (a canvas
and its 2d context are created together in `initCaches`). -/

/-- Module-level render flags and loaded datasets of `part_011`. -/
structure RenderEnv where
  showOcean : Bool
  showBorders : Bool
  showGraticules : Bool
  showGeoLines : Bool
  symbolStyle : String
  oceanLoaded : Bool
  countriesLoaded : Bool
deriving DecidableEq

/-- The cache key of the climate/symbol tier (`makeClimateLayerKey`,
lines 344–346): transform signature, symbol style, and the active
locked/hovered classification (empty string for null). -/
structure ClimateKey where
  k : ℚ
  x : ℚ
  y : ℚ
  style : String
  lockedType : String
  hoveredType : String
deriving DecidableEq

def makeClimateLayerKey (env : RenderEnv) (t : Transform)
    (lockedType hoveredType : Option String) : ClimateKey :=
  ⟨t.k, t.x, t.y, env.symbolStyle, lockedType.getD "", hoveredType.getD ""⟩

/-- The cache tier state: `oceanCache`/`countriesCache`/`climateLayerCache`
allocation flags and the stored signatures `lastOceanCacheZoom`,
`lastCountriesCacheZoom`, `climateLayerKey` (the initial JS key `""` never
equals a generated key and is modelled as `none`). -/
structure CacheState where
  oceanCache : Bool
  countriesCache : Bool
  climateLayerCache : Bool
  lastOceanCacheZoom : Option Transform
  lastCountriesCacheZoom : Option Transform
  climateLayerKey : Option ClimateKey
deriving DecidableEq

/-- `isCacheTransformMatch(cacheTransform, transform)` (lines 333–338). -/
def isCacheTransformMatch (cacheTransform : Option Transform) (t : Transform) : Bool :=
  match cacheTransform with
  | none => false
  | some c => decide (c.k = t.k ∧ c.x = t.x ∧ c.y = t.y)

/-- `makeTransformSnapshot(transform)` (lines 340–342). -/
def makeTransformSnapshot (t : Transform) : Transform := ⟨t.x, t.y, t.k⟩

def hasOceanCache (s : CacheState) (t : Transform) : Bool :=
  s.oceanCache && isCacheTransformMatch s.lastOceanCacheZoom t

def hasCountriesCache (s : CacheState) (t : Transform) : Bool :=
  s.countriesCache && isCacheTransformMatch s.lastCountriesCacheZoom t

def hasClimateLayerCache (env : RenderEnv) (s : CacheState) (t : Transform)
    (lockedType hoveredType : Option String) : Bool :=
  s.climateLayerCache &&
    decide (s.climateLayerKey = some (makeClimateLayerKey env t lockedType hoveredType))

/-- `invalidateCaches()` (lines 361–365). -/
def invalidateCaches (s : CacheState) : CacheState :=
  { s with lastOceanCacheZoom := none, lastCountriesCacheZoom := none,
           climateLayerKey := none }

/-- `initCaches()` (lines 368–381): allocate any missing offscreen canvas
and context. -/
def initCaches (s : CacheState) : CacheState :=
  { s with oceanCache := true, countriesCache := true, climateLayerCache := true }

/-- `generateOceanCache(transform)` (lines 402–461): repaint the ocean
raster and store the transform snapshot as its signature (also stored when
no feature is visible, lines 413–416); a silent no-op when no water data or
no context exists (line 403). -/
def generateOceanCache (env : RenderEnv) (s : CacheState) (t : Transform) : CacheState :=
  if ¬env.oceanLoaded ∨ ¬s.oceanCache then s
  else { s with lastOceanCacheZoom := some (makeTransformSnapshot t) }

/-- `generateCountriesCache(transform)` (lines 464–516): analogous for the
boundary raster. -/
def generateCountriesCache (env : RenderEnv) (s : CacheState) (t : Transform) : CacheState :=
  if ¬env.countriesLoaded ∨ ¬s.countriesCache then s
  else { s with lastCountriesCacheZoom := some (makeTransformSnapshot t) }

/-- `drawClimateLayerToCache(transform, lockedType, hoveredType)`
(lines 518–532): no-op without a context or when the stored key already
matches; otherwise repaint the symbol raster and store the new key.  The
second component counts repaints performed. -/
def drawClimateLayerToCache (env : RenderEnv) (s : CacheState) (t : Transform)
    (lockedType hoveredType : Option String) : CacheState × ℕ :=
  if ¬s.climateLayerCache then (s, 0)
  else if hasClimateLayerCache env s t lockedType hoveredType then (s, 0)
  else
    let key := makeClimateLayerKey env t lockedType hoveredType
    ({ s with climateLayerKey := some key }, 1)

/-- `ensureBaseLayerCaches(transform, options)` (lines 1662–1671): allocate
and resize the buffers, then regenerate the ocean and/or boundary raster
when requested, enabled, and its signature does not match.  The two counters
count the `generateOceanCache` / `generateCountriesCache` invocations. -/
def ensureBaseLayerCaches (env : RenderEnv) (s0 : CacheState) (t : Transform)
    (optOcean optCountries : Bool) : CacheState × ℕ × ℕ :=
  let s := initCaches s0
  let p1 := if env.showOcean && optOcean && !hasOceanCache s t then
      (generateOceanCache env s t, 1)
    else (s, 0)
  let p2 := if env.showBorders && optCountries && !hasCountriesCache p1.1 t then
      (generateCountriesCache env p1.1 t, 1)
    else (p1.1, 0)
  (p2.1, p1.2, p2.2)

/-- C3: per cache tier, running the ensure operation twice in a row with the
same signature invokes the repaint generator exactly once — the first call
(from a non-matching stored signature) repaints and stores the signature,
and the second call is a no-op (count 0, state unchanged), for the
water/ocean and boundary/countries tiers through `ensureBaseLayerCaches`
and for the symbol/climate tier through `drawClimateLayerToCache`. -/
theorem ensure_twice_invokes_generator_once (env : RenderEnv) (s0 : CacheState)
    (t : Transform) (lt ht : Option String)
    (hso : env.showOcean = true) (hol : env.oceanLoaded = true)
    (hsb : env.showBorders = true) (hcl : env.countriesLoaded = true)
    (hmo : isCacheTransformMatch s0.lastOceanCacheZoom t = false)
    (hmc : isCacheTransformMatch s0.lastCountriesCacheZoom t = false)
    (hcc : s0.climateLayerCache = true)
    (hmk : s0.climateLayerKey ≠ some (makeClimateLayerKey env t lt ht)) :
    (ensureBaseLayerCaches env s0 t true true).2.1 = 1 ∧
    (ensureBaseLayerCaches env s0 t true true).2.2 = 1 ∧
    (ensureBaseLayerCaches env (ensureBaseLayerCaches env s0 t true true).1
        t true true)
      = ((ensureBaseLayerCaches env s0 t true true).1, 0, 0) ∧
    (drawClimateLayerToCache env s0 t lt ht).2 = 1 ∧
    (drawClimateLayerToCache env (drawClimateLayerToCache env s0 t lt ht).1 t lt ht)
      = ((drawClimateLayerToCache env s0 t lt ht).1, 0) := by
  have key : isCacheTransformMatch (some (makeTransformSnapshot t)) t = true := by
    simp [isCacheTransformMatch, makeTransformSnapshot]
  refine ⟨?_, ?_, ?_, ?_, ?_⟩
  · simp [ensureBaseLayerCaches, initCaches, hasOceanCache, hso, hol,
      generateOceanCache, hmo]
  · simp [ensureBaseLayerCaches, initCaches, generateOceanCache, hasOceanCache,
      hasCountriesCache, generateCountriesCache, hso, hsb, hol, hcl, hmo, hmc]
  · simp [ensureBaseLayerCaches, initCaches, generateOceanCache,
      generateCountriesCache, hasOceanCache, hasCountriesCache,
      hso, hsb, hol, hcl, hmo, hmc, key]
  · simp [drawClimateLayerToCache, hasClimateLayerCache, hcc, hmk]
  · simp [drawClimateLayerToCache, hasClimateLayerCache, hcc, hmk]

/-- Witness for C3 at a concrete state. -/
theorem ensure_twice_invokes_generator_once_witness :
    (let env : RenderEnv := ⟨true, true, false, false, "glyph", true, true⟩
     let s0 : CacheState := ⟨true, true, true, none, none, none⟩
     let t : Transform := ⟨3, 4, 2⟩
     (ensureBaseLayerCaches env s0 t true true).2.1 = 1 ∧
     (ensureBaseLayerCaches env s0 t true true).2.2 = 1 ∧
     (ensureBaseLayerCaches env (ensureBaseLayerCaches env s0 t true true).1
         t true true)
       = ((ensureBaseLayerCaches env s0 t true true).1, 0, 0) ∧
     (drawClimateLayerToCache env s0 t (some "Cfb") none).2 = 1 ∧
     (drawClimateLayerToCache env
         (drawClimateLayerToCache env s0 t (some "Cfb") none).1 t
         (some "Cfb") none)
       = ((drawClimateLayerToCache env s0 t (some "Cfb") none).1, 0)) :=
  ensure_twice_invokes_generator_once ⟨true, true, false, false, "glyph", true, true⟩
    ⟨true, true, true, none, none, none⟩ ⟨3, 4, 2⟩ (some "Cfb") none
    rfl rfl rfl rfl rfl rfl rfl (by simp)

/-! ### C6: frame composition (`composeFrameFromCaches`, lines 1737–1765) -/

/-- The drawing operations `composeFrameFromCaches` performs on the visible
canvas, in order. -/
inductive DrawOp where
  | background
  | oceanRaster
  | countriesRaster
  | contentFrame
  | graticules
  | geoLines
  | climateRaster
  | countryLabels
  | cityLabels
  | axisLabels
  | markers
deriving DecidableEq

/-- `composeFrameFromCaches({transform, drawLabels, drawMarkers})`
(lines 1737–1765) as the ordered list of draw operations it performs.
The ocean and boundary rasters are guarded by `hasOceanCache` /
`hasCountriesCache`; the climate raster is drawn whenever the buffer
exists (`if (climateLayerCache) ctx.drawImage(...)`, lines 1752–1754),
with no key comparison. -/
def composeFrameFromCaches (env : RenderEnv) (s : CacheState) (t : Transform)
    (drawLabels drawMarkers : Bool) : List DrawOp :=
  [DrawOp.background]
    ++ (if env.showOcean && s.oceanCache && hasOceanCache s t then
          [DrawOp.oceanRaster] else [])
    ++ (if env.showBorders && s.countriesCache && hasCountriesCache s t then
          [DrawOp.countriesRaster] else [])
    ++ [DrawOp.contentFrame]
    ++ (if env.showGraticules then [DrawOp.graticules] else [])
    ++ (if env.showGeoLines then [DrawOp.geoLines] else [])
    ++ (if s.climateLayerCache then [DrawOp.climateRaster] else [])
    ++ [DrawOp.countryLabels, DrawOp.cityLabels]
    ++ (if drawLabels && (env.showGraticules || env.showGeoLines) then
          [DrawOp.axisLabels] else [])
    ++ (if drawMarkers then [DrawOp.markers] else [])

/-- Counterexample to C6 as stated: a composition that draws the symbol
raster while its stored key does not match the transform and selection used
for composition.  The stored key was produced at scale 2, the composing
transform has scale 1, and the current selection is no lock / no hover. -/
theorem composeFrame_draws_mismatched_climate_raster :
    DrawOp.climateRaster ∈
        composeFrameFromCaches ⟨true, true, false, false, "glyph", true, true⟩
          ⟨true, true, true, none, none, some ⟨2, 0, 0, "glyph", "", ""⟩⟩
          ⟨0, 0, 1⟩ true true ∧
      hasClimateLayerCache ⟨true, true, false, false, "glyph", true, true⟩
          ⟨true, true, true, none, none, some ⟨2, 0, 0, "glyph", "", ""⟩⟩
          ⟨0, 0, 1⟩ none none = false := by
  constructor
  · simp [composeFrameFromCaches, hasOceanCache, hasCountriesCache,
      isCacheTransformMatch]
  · simp [hasClimateLayerCache, makeClimateLayerKey]

/-- C6 (amended): during composition the water and boundary rasters are
drawn only when their stored signature exactly matches the composing
transform; the symbol raster, however, is drawn whenever its buffer exists,
with no key check at composition time — the repaint paths instead call
`drawClimateLayerToCache` for the current transform and selection
immediately before composing, after which the stored key matches. -/
theorem composeFrame_signature_guards (env : RenderEnv) (s : CacheState)
    (t : Transform) (drawLabels drawMarkers : Bool) (lt ht : Option String)
    (hcc : s.climateLayerCache = true) :
    (DrawOp.oceanRaster ∈ composeFrameFromCaches env s t drawLabels drawMarkers →
        hasOceanCache s t = true) ∧
      (DrawOp.countriesRaster ∈ composeFrameFromCaches env s t drawLabels drawMarkers →
        hasCountriesCache s t = true) ∧
      DrawOp.climateRaster ∈ composeFrameFromCaches env s t drawLabels drawMarkers ∧
      hasClimateLayerCache env (drawClimateLayerToCache env s t lt ht).1 t lt ht
        = true := by
  refine ⟨?_, ?_, ?_, ?_⟩
  · intro h
    by_cases hoc : hasOceanCache s t = true
    · exact hoc
    · exfalso
      have hb : hasOceanCache s t = false := by
        cases hx : hasOceanCache s t
        · rfl
        · exact absurd hx hoc
      simp [composeFrameFromCaches, hb] at h
  · intro h
    by_cases hoc : hasCountriesCache s t = true
    · exact hoc
    · exfalso
      have hb : hasCountriesCache s t = false := by
        cases hx : hasCountriesCache s t
        · rfl
        · exact absurd hx hoc
      simp [composeFrameFromCaches, hb] at h
  · simp [composeFrameFromCaches, hcc]
  · unfold drawClimateLayerToCache
    rw [if_neg (by simp [hcc])]
    by_cases hmatch : hasClimateLayerCache env s t lt ht = true
    · rw [if_pos hmatch]
      exact hmatch
    · rw [if_neg hmatch]
      simp [hasClimateLayerCache, hcc]

/-- Witness for the amended C6 at a concrete state. -/
theorem composeFrame_signature_guards_witness :
    (let env : RenderEnv := ⟨true, true, true, true, "point", true, true⟩
     let s : CacheState := ⟨true, true, true, some ⟨1, 2, 3⟩, none, none⟩
     let t : Transform := ⟨2, 3, 1⟩
     (DrawOp.oceanRaster ∈ composeFrameFromCaches env s t true true →
        hasOceanCache s t = true) ∧
      (DrawOp.countriesRaster ∈ composeFrameFromCaches env s t true true →
        hasCountriesCache s t = true) ∧
      DrawOp.climateRaster ∈ composeFrameFromCaches env s t true true ∧
      hasClimateLayerCache env
          (drawClimateLayerToCache env s t none (some "BWh")).1 t none
          (some "BWh") = true) :=
  composeFrame_signature_guards ⟨true, true, true, true, "point", true, true⟩
    ⟨true, true, true, some ⟨1, 2, 3⟩, none, none⟩ ⟨2, 3, 1⟩ true true
    none (some "BWh") rfl

/-! ### C4: progressive refinement job (`part_011` lines 1694–1735, 1779–1816)

The engine state relevant to the scheduler is the render epoch, the cache
tiers, and how many frames have been composited.  A gesture or resize bumps
the epoch (`renderEpoch += 1`, line 2060) and `cancelRefineJob` marks the
outstanding job cancelled (line 1700); those external events do not touch
the caches in this model, so any cache change along a trace is attributable
to the job's own steps. -/

structure Engine where
  renderEpoch : ℕ
  cache : CacheState
  composeCount : ℕ
deriving DecidableEq

/-- `pendingRefineJob`: `{epoch, cancelled, transform, step, ...}`
(lines 1781–1788). -/
structure RefineJob where
  epoch : ℕ
  cancelled : Bool
  transform : Transform
  step : ℕ
deriving DecidableEq

/-- The job created by `startRefineJob(epoch)` (lines 1779–1789): the caller
passes the engine's current render epoch (lines 2060–2063, guarded again at
line 1719). -/
def mkRefineJob (e : Engine) (t : Transform) : RefineJob :=
  ⟨e.renderEpoch, false, t, 0⟩

/-- One scheduled step of the refinement job (`runStep`, lines 1792–1813;
the identical cancelled/epoch guard also sits in `scheduleRefineStep`,
line 1727): abort without side effects on cancellation or epoch mismatch;
otherwise step 0 regenerates the ocean tier and composites, step 1
regenerates the boundary tier and composites, the final step composites
with labels. -/
def runRefineStep (env : RenderEnv) (e : Engine) (j : RefineJob) :
    Engine × RefineJob :=
  if j.cancelled = true ∨ j.epoch ≠ e.renderEpoch then (e, j)
  else if j.step = 0 then
    ({ e with
        cache := (ensureBaseLayerCaches env e.cache j.transform true false).1,
        composeCount := e.composeCount + 1 },
      { j with step := j.step + 1 })
  else if j.step = 1 then
    ({ e with
        cache := (ensureBaseLayerCaches env e.cache j.transform false true).1,
        composeCount := e.composeCount + 1 },
      { j with step := j.step + 1 })
  else
    ({ e with composeCount := e.composeCount + 1 }, j)

/-- The events that can interleave with a refinement job. -/
inductive RefineEv where
  | bumpEpoch
  | cancel
  | step
deriving DecidableEq

def execRefineEv (env : RenderEnv) :
    RefineEv → Engine × RefineJob → Engine × RefineJob
  | RefineEv.bumpEpoch, (e, j) => ({ e with renderEpoch := e.renderEpoch + 1 }, j)
  | RefineEv.cancel, (e, j) => (e, { j with cancelled := true })
  | RefineEv.step, (e, j) => runRefineStep env e j

def execRefineEvs (env : RenderEnv) (evs : List RefineEv)
    (p : Engine × RefineJob) : Engine × RefineJob :=
  evs.foldl (fun p ev => execRefineEv env ev p) p

lemma runRefineStep_epochs (env : RenderEnv) (e : Engine) (j : RefineJob) :
    (runRefineStep env e j).1.renderEpoch = e.renderEpoch ∧
      (runRefineStep env e j).2.epoch = j.epoch ∧
      (runRefineStep env e j).2.cancelled = j.cancelled := by
  unfold runRefineStep
  split_ifs <;> exact ⟨rfl, rfl, rfl⟩

/-- Along any event trace, a job's epoch never exceeds the engine's epoch
once it is at most the engine's epoch (jobs are created at the current
epoch, and the engine epoch only grows). -/
lemma refine_epoch_le (env : RenderEnv) (evs : List RefineEv) :
    ∀ p : Engine × RefineJob, p.2.epoch ≤ p.1.renderEpoch →
      (execRefineEvs env evs p).2.epoch ≤ (execRefineEvs env evs p).1.renderEpoch := by
  induction evs with
  | nil => intro p h; exact h
  | cons ev rest ih =>
      intro p h
      refine ih _ ?_
      cases ev with
      | bumpEpoch => exact Nat.le_succ_of_le h
      | cancel => exact h
      | step =>
          obtain ⟨h1, h2, _⟩ := runRefineStep_epochs env p.1 p.2
          simp only [execRefineEv, h1, h2]
          exact h

/-- A dead job (cancelled, or with an epoch strictly below the engine's)
stays dead and never changes the caches or composites a frame. -/
lemma refine_dead_no_mutation (env : RenderEnv) (evs : List RefineEv) :
    ∀ p : Engine × RefineJob,
      (p.2.cancelled = true ∨ p.2.epoch < p.1.renderEpoch) →
      (execRefineEvs env evs p).1.cache = p.1.cache ∧
        (execRefineEvs env evs p).1.composeCount = p.1.composeCount ∧
        ((execRefineEvs env evs p).2.cancelled = true ∨
          (execRefineEvs env evs p).2.epoch < (execRefineEvs env evs p).1.renderEpoch) := by
  induction evs with
  | nil => intro p h; exact ⟨rfl, rfl, h⟩
  | cons ev rest ih =>
      intro p h
      have hstep : execRefineEv env ev p = p ∨
          ((execRefineEv env ev p).1.cache = p.1.cache ∧
            (execRefineEv env ev p).1.composeCount = p.1.composeCount ∧
            ((execRefineEv env ev p).2.cancelled = true ∨
              (execRefineEv env ev p).2.epoch < (execRefineEv env ev p).1.renderEpoch)) := by
        cases ev with
        | bumpEpoch =>
            right
            refine ⟨rfl, rfl, ?_⟩
            cases h with
            | inl hc => exact Or.inl hc
            | inr he => exact Or.inr (Nat.lt_succ_of_lt he)
        | cancel => right; exact ⟨rfl, rfl, Or.inl rfl⟩
        | step =>
            left
            show runRefineStep env p.1 p.2 = p
            unfold runRefineStep
            rw [if_pos]
            cases h with
            | inl hc => exact Or.inl hc
            | inr he => exact Or.inr (Nat.ne_of_lt he)
      cases hstep with
      | inl heq =>
          have := ih p h
          simpa [execRefineEvs, List.foldl_cons, heq] using this
      | inr hprop =>
          have := ih (execRefineEv env ev p) hprop.2.2
          refine ⟨?_, ?_, this.2.2⟩
          · rw [show execRefineEvs env (ev :: rest) p
                = execRefineEvs env rest (execRefineEv env ev p) from rfl]
            rw [this.1, hprop.1]
          · rw [show execRefineEvs env (ev :: rest) p
                = execRefineEvs env rest (execRefineEv env ev p) from rfl]
            rw [this.2.1, hprop.2.1]

/-- C4: for a refinement job created at the engine's current epoch and any
interleaving of gesture/resize events (epoch bumps, cancellations) with job
steps, once the job is cancelled or its epoch differs from the engine's
current render epoch, no subsequent step of that job mutates any cache tier
or composites any frame. -/
theorem refineJob_dead_after_mismatch (env : RenderEnv) (e0 : Engine)
    (t : Transform) (evs1 evs2 : List RefineEv)
    (hdead : (execRefineEvs env evs1 (e0, mkRefineJob e0 t)).2.cancelled = true ∨
      (execRefineEvs env evs1 (e0, mkRefineJob e0 t)).2.epoch ≠
        (execRefineEvs env evs1 (e0, mkRefineJob e0 t)).1.renderEpoch) :
    (execRefineEvs env evs2 (execRefineEvs env evs1 (e0, mkRefineJob e0 t))).1.cache
        = (execRefineEvs env evs1 (e0, mkRefineJob e0 t)).1.cache ∧
      (execRefineEvs env evs2 (execRefineEvs env evs1 (e0, mkRefineJob e0 t))).1.composeCount
        = (execRefineEvs env evs1 (e0, mkRefineJob e0 t)).1.composeCount := by
  have hle : (execRefineEvs env evs1 (e0, mkRefineJob e0 t)).2.epoch ≤
      (execRefineEvs env evs1 (e0, mkRefineJob e0 t)).1.renderEpoch :=
    refine_epoch_le env evs1 (e0, mkRefineJob e0 t) (le_refl e0.renderEpoch)
  have hd : (execRefineEvs env evs1 (e0, mkRefineJob e0 t)).2.cancelled = true ∨
      (execRefineEvs env evs1 (e0, mkRefineJob e0 t)).2.epoch <
        (execRefineEvs env evs1 (e0, mkRefineJob e0 t)).1.renderEpoch := by
    cases hdead with
    | inl hc => exact Or.inl hc
    | inr hne => exact Or.inr (lt_of_le_of_ne hle hne)
  have := refine_dead_no_mutation env evs2
    (execRefineEvs env evs1 (e0, mkRefineJob e0 t)) hd
  exact ⟨this.1, this.2.1⟩

/-- Witness for C4: an epoch bump after job creation, then two attempted
steps; the caches and compose count stay untouched. -/
theorem refineJob_dead_after_mismatch_witness :
    (let env : RenderEnv := ⟨true, true, false, false, "glyph", true, true⟩
     let e0 : Engine := ⟨5, ⟨true, true, true, none, none, none⟩, 0⟩
     let t : Transform := ⟨0, 0, 1⟩
     (execRefineEvs env [RefineEv.step, RefineEv.step]
          (execRefineEvs env [RefineEv.bumpEpoch] (e0, mkRefineJob e0 t))).1.cache
        = (execRefineEvs env [RefineEv.bumpEpoch] (e0, mkRefineJob e0 t)).1.cache ∧
      (execRefineEvs env [RefineEv.step, RefineEv.step]
          (execRefineEvs env [RefineEv.bumpEpoch] (e0, mkRefineJob e0 t))).1.composeCount
        = (execRefineEvs env [RefineEv.bumpEpoch] (e0, mkRefineJob e0 t)).1.composeCount) :=
  refineJob_dead_after_mismatch ⟨true, true, false, false, "glyph", true, true⟩
    ⟨5, ⟨true, true, true, none, none, none⟩, 0⟩ ⟨0, 0, 1⟩
    [RefineEv.bumpEpoch] [RefineEv.step, RefineEv.step] (by decide)

/-! ### C5: hover freeze while locked (`part_011` lines 2108–2231) -/

def DENSITY_FACTOR : ℚ := 1.1
def PRECIP_RADIUS_SCALE : ℚ := 2.3

/-- The interaction-controller state read and written by `onMouseMove` and
the `lock.map` / `unlock.map` dispatcher handlers: the guard flags, the lock
state of the chart panel (`PANEL_LOCKED` / `LOCKED_DATA` in
chart-tab-overall.js), the hovered datum, and the inputs of the spatial
query.  SVG highlight geometry, cursor style and scheduled redraws are
presentation effects outside the model. -/
structure InteractionState where
  projectionPresent : Bool
  isZooming : Bool
  isInteractingBitmapMode : Bool
  panelLocked : Bool
  lockedData : Option Station
  hoveredDatum : Option Station
  symbolRadius : ℚ
  zoomTransform : Transform
  quadtreePts : List IdxPt
deriving DecidableEq

/-- The notifications `onMouseMove` emits through the dispatcher. -/
inductive HoverEvent where
  | hover (d : Station)
  | hoverend
deriving DecidableEq

/-- `onMouseMove(e)` (lines 2167–2231): skip without a projection, during an
active gesture, or while the panel is locked; otherwise query the quadtree
with the density-scaled pixel radius and, when the result changed, update
`hoveredDatum` and emit `hover`/`hoverend`. -/
def onMouseMove (st : InteractionState) (sx sy : ℚ) :
    InteractionState × List HoverEvent :=
  if ¬st.projectionPresent then (st, [])
  else if st.isZooming || st.isInteractingBitmapMode then (st, [])
  else if st.panelLocked then (st, [])
  else
    let pixelRadius := st.symbolRadius * DENSITY_FACTOR * PRECIP_RADIUS_SCALE *
      st.zoomTransform.k * 1.2
    let nearest := findNearestScreen st.quadtreePts st.zoomTransform sx sy pixelRadius
    if nearest = st.hoveredDatum then (st, [])
    else
      match nearest with
      | some n => ({ st with hoveredDatum := some n }, [HoverEvent.hover n])
      | none => ({ st with hoveredDatum := none }, [HoverEvent.hoverend])

/-- The selection part of the `lock.map` handler (lines 2108–2140):
`setPanelLocked(true, d || null)` and `hoveredDatum = d || null`. -/
def applyLock (st : InteractionState) (d : Option Station) : InteractionState :=
  { st with panelLocked := true, lockedData := d, hoveredDatum := d }

/-- The selection part of the `unlock.map` handler (lines 2142–2155):
`setPanelLocked(false, null)` and `hoveredDatum = null`. -/
def applyUnlock (st : InteractionState) : InteractionState :=
  { st with panelLocked := false, lockedData := none, hoveredDatum := none }

/-- C5: while the panel is locked, a pointer move never changes the
interaction state and emits no hover notification (in particular locking
station A freezes the hover state against any later move, wherever the
pointer goes); after unlocking, the very next pointer move resumes hover
tracking — when the spatial query finds a station it becomes the hovered
datum and a hover notification is emitted. -/
theorem locked_hover_frozen_unlock_resumes :
    (∀ (st : InteractionState) (sx sy : ℚ), st.panelLocked = true →
        onMouseMove st sx sy = (st, [])) ∧
      (∀ (st : InteractionState) (a : Option Station) (sx sy : ℚ),
        onMouseMove (applyLock st a) sx sy = (applyLock st a, [])) ∧
      (∀ (st : InteractionState) (sx sy : ℚ) (b : Station),
        st.projectionPresent = true → st.isZooming = false →
        st.isInteractingBitmapMode = false →
        findNearestScreen st.quadtreePts st.zoomTransform sx sy
            (st.symbolRadius * DENSITY_FACTOR * PRECIP_RADIUS_SCALE *
              st.zoomTransform.k * 1.2) = some b →
        onMouseMove (applyUnlock st) sx sy
          = ({ applyUnlock st with hoveredDatum := some b },
             [HoverEvent.hover b])) := by
  refine ⟨?_, ?_, ?_⟩
  · intro st sx sy hlock
    simp [onMouseMove, hlock]
  · intro st a sx sy
    simp [onMouseMove, applyLock]
  · intro st sx sy b hproj hzoom hbitmap hfind
    unfold onMouseMove applyUnlock
    rw [if_neg (by simp [hproj]), if_neg (by simp [hzoom, hbitmap]),
      if_neg (by simp)]
    simp only
    rw [show findNearestScreen st.quadtreePts st.zoomTransform sx sy
        (st.symbolRadius * DENSITY_FACTOR * PRECIP_RADIUS_SCALE *
          st.zoomTransform.k * 1.2) = some b from hfind]
    rw [if_neg (by simp)]

/-- Witness for C5: station A (classification Cfb) locked, station B
(classification BWh) under the pointer; the move during lock is a frozen
no-op, and the first move after unlock hovers B. -/
theorem locked_hover_frozen_unlock_resumes_witness :
    (let a : Station := ⟨0, 0, some 100, some 100, "Cfb"⟩
     let b : Station := ⟨1, 1, some 0, some 0, "BWh"⟩
     let st : InteractionState :=
       ⟨true, false, false, false, none, none, 10, ⟨0, 0, 1⟩,
         [⟨0, 0, b⟩, ⟨100, 100, a⟩]⟩
     onMouseMove (applyLock st (some a)) 0 0 = (applyLock st (some a), []) ∧
       onMouseMove (applyUnlock st) 0 0
         = ({ applyUnlock st with hoveredDatum := some b },
            [HoverEvent.hover b])) := by
  refine ⟨locked_hover_frozen_unlock_resumes.2.1 _ _ _ _,
    locked_hover_frozen_unlock_resumes.2.2 _ _ _ _ rfl rfl rfl ?_⟩
  norm_num [findNearestScreen, quadtreeFind, nearestStep, insideRadius, dist2,
    DENSITY_FACTOR, PRECIP_RADIUS_SCALE]

/-! ### C8 / C9: projection fitting and the degenerate-data pipeline
(`part_011` lines 764–788, 842–880, 887–914, 1459–1533) -/

/-- A fitted equirectangular projection.  Within one fit,
`d3.geoEquirectangular()` is the affine map
`(lon, lat) ↦ (K·lon + tx, -K·lat + ty)` (screen y grows downward). -/
structure FittedProjection where
  K : ℚ
  tx : ℚ
  ty : ℚ
deriving DecidableEq

def FittedProjection.apply (P : FittedProjection) (lon lat : ℚ) : ℚ × ℚ :=
  (P.K * lon + P.tx, -P.K * lat + P.ty)

/-- Model of the external `d3.geoEquirectangular().fitExtent(extent, object)`
on a FeatureCollection of points, following d3's documented fit algorithm:
take the projected bounding box of the points, scale uniformly by the larger
factor that still fits it into the extent, and centre it there.  An empty
point set, or a bounding box degenerate on both axes, makes the JS scale or
translate non-finite (`Infinity`/`NaN`, every projected output non-finite);
that outcome is modelled as `none`.  A box degenerate on one axis only is
fitted by the other axis (the JS division by zero gives `Infinity`, which
loses the `Math.min`). -/
def fitExtentEquirect (x0 y0 x1 y1 : ℚ) : List (ℚ × ℚ) → Option FittedProjection
  | [] => none
  | p :: rest =>
    let lonLo := ((p :: rest).map Prod.fst).foldl min p.1
    let lonHi := ((p :: rest).map Prod.fst).foldl max p.1
    let latLo := ((p :: rest).map Prod.snd).foldl min p.2
    let latHi := ((p :: rest).map Prod.snd).foldl max p.2
    let w := x1 - x0
    let h := y1 - y0
    let dx := lonHi - lonLo
    let dy := latHi - latLo
    let kOpt : Option ℚ :=
      if dx = 0 ∧ dy = 0 then none
      else if dx = 0 then some (h / dy)
      else if dy = 0 then some (w / dx)
      else some (min (w / dx) (h / dy))
    kOpt.map (fun K =>
      ⟨K, x0 + (w - K * (lonLo + lonHi)) / 2, y0 + (h + K * (latLo + latHi)) / 2⟩)

/-- `updateProjection()` (`part_011` lines 764–778): fit an equirectangular
projection to the station set over the full canvas extent.  (The projected
cache version bump and feature-bounds recomputation are bookkeeping outside
this model.) -/
def updateProjection (data : List Station) (width height : ℚ) :
    Option FittedProjection :=
  fitExtentEquirect 0 0 width height (data.map (fun d => (d.lon, d.lat)))

/-- `updateProjectedDataCache()` (lines 780–788): store each station's
projected position; an early no-op without a projection. -/
def updateProjectedDataCache (proj : Option FittedProjection)
    (data : List Station) : List Station :=
  match proj with
  | none => data
  | some P => data.map (fun d =>
      { d with px := some (P.apply d.lon d.lat).1,
               py := some (P.apply d.lon d.lat).2 })

def GLYPH_SAMPLE_SIZE : ℕ := 2000
def GLYPH_FALLBACK_RADIUS : ℚ := 1.2

/-- The finite cached positions of the stations (the `Number.isFinite`
filters at lines 845, 892, 1479, 1529). -/
def finitePositions (data : List Station) : List (ℚ × ℚ) :=
  data.filterMap (fun d => match d.px, d.py with
    | some x, some y => some (x, y)
    | _, _ => none)

/-- `nearestDistanceFromQuadtree(quadtree, p)` (lines 811–834) for the point
at index `i`: the distance from `pts[i]` to the nearest other point (object
identity modelled by index), `none` when there is none (the JS `NaN`,
filtered by the caller).  `Rat.sqrt` stands for `Math.sqrt` (both are
approximations; only `sqrt 0 = 0` and monotonicity matter here). -/
def nearestDistOfIdx (pts : List (ℚ × ℚ)) (i : ℕ) : Option ℚ :=
  match pts.get? i with
  | none => none
  | some p =>
    let ds := (List.range pts.length).filterMap (fun j =>
      if j = i then none
      else (pts.get? j).map (fun q => dist2 p.1 p.2 q.1 q.2))
    match ds with
    | [] => none
    | d :: rest => some (Rat.sqrt (rest.foldl min d))

/-- `computeSymbolRadius()` (lines 842–880): fall back to
`GLYPH_FALLBACK_RADIUS` below two finite points; otherwise sample every
`step`-th point (at most `GLYPH_SAMPLE_SIZE`), take the median
nearest-neighbour distance and halve it, floored by the fallback radius. -/
def computeSymbolRadius (data : List Station) : ℚ :=
  let pts := finitePositions data
  if pts.length < 2 then GLYPH_FALLBACK_RADIUS
  else
    let sampleSize := min GLYPH_SAMPLE_SIZE pts.length
    let step := max 1 (pts.length / sampleSize)
    let sampledIdx :=
      ((List.range pts.length).filter (fun i => i % step = 0)).take sampleSize
    let distances := sampledIdx.filterMap (fun i => nearestDistOfIdx pts i)
    match distances with
    | [] => GLYPH_FALLBACK_RADIUS
    | d :: rest =>
      let sorted := (d :: rest).insertionSort (· ≤ ·)
      let len := (d :: rest).length
      let m := len / 2
      let median := if len % 2 = 1 then sorted.getD m 0
        else (sorted.getD (m - 1) 0 + sorted.getD m 0) / 2
      max GLYPH_FALLBACK_RADIUS (median / 2)

/-- `computeMapBounds()` (lines 887–914): the bounding box of the finite
projected positions, with the finite viewport fallback when none exists,
padded by the symbol padding on every side. -/
def computeMapBounds (data : List Station) (symbolRadius width height : ℚ) :
    MapBounds :=
  let pad := symbolRadius * DENSITY_FACTOR * PRECIP_RADIUS_SCALE * 2
  match finitePositions data with
  | [] => ⟨0 - pad, width + pad, 0 - pad, height + pad⟩
  | q :: rest =>
    let minX := (rest.map Prod.fst).foldl min q.1
    let maxX := (rest.map Prod.fst).foldl max q.1
    let minY := (rest.map Prod.snd).foldl min q.2
    let maxY := (rest.map Prod.snd).foldl max q.2
    ⟨minX - pad, maxX + pad, minY - pad, maxY + pad⟩

/-- The stations actually drawn by `drawPointsBatchOnContext` /
`drawGlyphsBatchOnContext` (lines 1459–1533): nothing when the symbol radius
is below half a pixel; otherwise the stations with finite cached positions
inside the padded viewport, in data order. -/
def drawnSymbols (data : List Station) (symbolRadius width height : ℚ)
    (t : Transform) (isGlyph : Bool) : List Station :=
  let maxR := if isGlyph then
      symbolRadius * DENSITY_FACTOR * PRECIP_RADIUS_SCALE * t.k
    else symbolRadius * DENSITY_FACTOR * t.k * 0.8
  if maxR < 1/2 then []
  else
    let viewportPadding := maxR + 2
    let left := -viewportPadding - t.x / t.k
    let right := (width - t.x) / t.k + viewportPadding
    let top := -viewportPadding - t.y / t.k
    let bottom := (height - t.y) / t.k + viewportPadding
    data.filter (fun d => match d.px, d.py with
      | some x, some y => decide (left ≤ x ∧ x ≤ right ∧ top ≤ y ∧ y ≤ bottom)
      | _, _ => false)

/-- The three-station scenario of the spec: `(0,0)`, `(10,10)`,
`(-170,-80)`, freshly loaded (no cached projection). -/
def scenarioStations : List Station :=
  [⟨0, 0, none, none, ""⟩, ⟨10, 10, none, none, ""⟩, ⟨-170, -80, none, none, ""⟩]

/-- Shared evaluation: the fitted projection of the scenario.  The lon span
(180°) is the constraining axis, so `K = 800/180 = 40/9`. -/
lemma updateProjection_scenario_eval :
    updateProjection scenarioStations 800 600 = some ⟨40/9, 6800/9, 1300/9⟩ := by
  simp only [updateProjection, scenarioStations, List.map_cons, List.map_nil,
    fitExtentEquirect, List.foldl_cons, List.foldl_nil]
  norm_num [min_def, max_def]

/-- Counterexample to C8 as stated: after fitting, the station `(10, 10)`
projects to screen x exactly `800` — on the boundary of the
`[0,800] × [0,600]` rectangle, not strictly inside it. -/
theorem updateProjection_scenario_on_boundary :
    updateProjection scenarioStations 800 600 = some ⟨40/9, 6800/9, 1300/9⟩ ∧
      (FittedProjection.apply ⟨40/9, 6800/9, 1300/9⟩ 10 10).1 = 800 ∧
      ¬ ((FittedProjection.apply ⟨40/9, 6800/9, 1300/9⟩ 10 10).1 < 800) := by
  refine ⟨updateProjection_scenario_eval, ?_, ?_⟩
  · norm_num [FittedProjection.apply]
  · norm_num [FittedProjection.apply]

/-- C8 (amended): after fitting the projection over the three scenario
stations on an 800×600 viewport, every station projects inside the closed
rectangle `[0,800] × [0,600]` (the extreme stations of the constraining
axis land exactly on its boundary, so membership is not strict). -/
theorem updateProjection_scenario_inside_closed :
    ∀ s ∈ scenarioStations,
      (updateProjection scenarioStations 800 600).elim False (fun P =>
        0 ≤ (P.apply s.lon s.lat).1 ∧ (P.apply s.lon s.lat).1 ≤ 800 ∧
          0 ≤ (P.apply s.lon s.lat).2 ∧ (P.apply s.lon s.lat).2 ≤ 600) := by
  intro s hs
  rw [updateProjection_scenario_eval]
  fin_cases hs <;> norm_num [FittedProjection.apply, Option.elim]

/-- Witness for the amended C8 at the boundary station `(10, 10)`. -/
theorem updateProjection_scenario_inside_closed_witness :
    (updateProjection scenarioStations 800 600).elim False (fun P =>
      0 ≤ (P.apply (10:ℚ) (10:ℚ)).1 ∧ (P.apply (10:ℚ) (10:ℚ)).1 ≤ 800 ∧
        0 ≤ (P.apply (10:ℚ) (10:ℚ)).2 ∧ (P.apply (10:ℚ) (10:ℚ)).2 ≤ 600) :=
  updateProjection_scenario_inside_closed ⟨10, 10, none, none, ""⟩
    (by simp [scenarioStations])

/-! ### C9: degenerate station sets degrade gracefully -/

lemma foldl_min_const {l : List ℚ} {c : ℚ} (h : ∀ x ∈ l, x = c) :
    l.foldl min c = c := by
  induction l with
  | nil => rfl
  | cons a t ih =>
      have ha : a = c := h a (List.mem_cons_self a t)
      rw [List.foldl_cons, ha, min_self]
      exact ih (fun x hx => h x (List.mem_cons_of_mem _ hx))

lemma foldl_max_const {l : List ℚ} {c : ℚ} (h : ∀ x ∈ l, x = c) :
    l.foldl max c = c := by
  induction l with
  | nil => rfl
  | cons a t ih =>
      have ha : a = c := h a (List.mem_cons_self a t)
      rw [List.foldl_cons, ha, max_self]
      exact ih (fun x hx => h x (List.mem_cons_of_mem _ hx))

lemma finitePositions_eq_nil {data : List Station}
    (h : ∀ d ∈ data, d.px = none ∧ d.py = none) :
    finitePositions data = [] := by
  induction data with
  | nil => rfl
  | cons d ds ih =>
      have hd := h d (List.mem_cons_self d ds)
      have hrest := ih (fun x hx => h x (List.mem_cons_of_mem _ hx))
      simp only [finitePositions, List.filterMap_cons] at hrest ⊢
      rw [hd.1]
      exact hrest

/-- C9: for a freshly loaded station set that is empty or fully degenerate
(all stations at one coordinate), the projection-fitting path yields no
usable projection (the non-finite d3 fit, modelled `none`) instead of
throwing; the derived map bounds and symbol radius take their finite
fallback values; and the symbol renderer draws no station symbols. -/
theorem degenerate_station_set_degrades_gracefully
    (data : List Station) (width height lon0 lat0 : ℚ)
    (hdeg : ∀ d ∈ data, d.lon = lon0 ∧ d.lat = lat0)
    (hfresh : ∀ d ∈ data, d.px = none ∧ d.py = none) :
    updateProjection data width height = none ∧
      updateProjectedDataCache (updateProjection data width height) data = data ∧
      computeSymbolRadius data = GLYPH_FALLBACK_RADIUS ∧
      computeMapBounds data (computeSymbolRadius data) width height
        = ⟨0 - GLYPH_FALLBACK_RADIUS * DENSITY_FACTOR * PRECIP_RADIUS_SCALE * 2,
           width + GLYPH_FALLBACK_RADIUS * DENSITY_FACTOR * PRECIP_RADIUS_SCALE * 2,
           0 - GLYPH_FALLBACK_RADIUS * DENSITY_FACTOR * PRECIP_RADIUS_SCALE * 2,
           height + GLYPH_FALLBACK_RADIUS * DENSITY_FACTOR * PRECIP_RADIUS_SCALE * 2⟩ ∧
      ∀ (t : Transform) (isGlyph : Bool),
        drawnSymbols data (computeSymbolRadius data) width height t isGlyph = [] := by
  have hpts : finitePositions data = [] := finitePositions_eq_nil hfresh
  have hproj : updateProjection data width height = none := by
    cases data with
    | nil => rfl
    | cons d ds =>
        have hd := hdeg d (List.mem_cons_self d ds)
        have hlon : ∀ x ∈ (d.lon ::
            List.map Prod.fst (List.map (fun e : Station => (e.lon, e.lat)) ds)),
            x = d.lon := by
          intro x hx
          simp only [List.mem_cons, List.map_map, List.mem_map,
            Function.comp] at hx
          rcases hx with h1 | ⟨e, he, hex⟩
          · exact h1
          · rw [← hex, (hdeg e (List.mem_cons_of_mem _ he)).1, hd.1]
        have hlat : ∀ x ∈ (d.lat ::
            List.map Prod.snd (List.map (fun e : Station => (e.lon, e.lat)) ds)),
            x = d.lat := by
          intro x hx
          simp only [List.mem_cons, List.map_map, List.mem_map,
            Function.comp] at hx
          rcases hx with h1 | ⟨e, he, hex⟩
          · exact h1
          · rw [← hex, (hdeg e (List.mem_cons_of_mem _ he)).2, hd.2]
        unfold updateProjection
        simp only [List.map_cons, fitExtentEquirect]
        rw [foldl_min_const hlon, foldl_max_const hlon,
          foldl_min_const hlat, foldl_max_const hlat]
        simp
  have hrad : computeSymbolRadius data = GLYPH_FALLBACK_RADIUS := by
    unfold computeSymbolRadius
    rw [hpts]
    simp
  refine ⟨hproj, by rw [hproj]; rfl, hrad, ?_, ?_⟩
  · rw [hrad]
    unfold computeMapBounds
    rw [hpts]
  · intro t isGlyph
    have hfil : ∀ la ra ta ba : ℚ,
        data.filter (fun d => match d.px, d.py with
          | some x, some y => decide (la ≤ x ∧ x ≤ ra ∧ ta ≤ y ∧ y ≤ ba)
          | _, _ => false) = [] := by
      intro la ra ta ba
      rw [List.filter_eq_nil]
      intro d hd
      rw [(hfresh d hd).1]
      simp
    unfold drawnSymbols
    dsimp only
    split_ifs <;> first | rfl | exact hfil _ _ _ _

/-- Witness for C9 on a concrete degenerate two-station set. -/
theorem degenerate_station_set_degrades_gracefully_witness :
    (let dataW : List Station :=
       [⟨5, 6, none, none, "Af"⟩, ⟨5, 6, none, none, "Af"⟩]
     updateProjection dataW 800 600 = none ∧
       computeSymbolRadius dataW = GLYPH_FALLBACK_RADIUS ∧
       drawnSymbols dataW (computeSymbolRadius dataW) 800 600 ⟨0, 0, 1⟩ true = []) :=
  ⟨(degenerate_station_set_degrades_gracefully
      [⟨5, 6, none, none, "Af"⟩, ⟨5, 6, none, none, "Af"⟩] 800 600 5 6
      (by simp) (by simp)).1,
   (degenerate_station_set_degrades_gracefully
      [⟨5, 6, none, none, "Af"⟩, ⟨5, 6, none, none, "Af"⟩] 800 600 5 6
      (by simp) (by simp)).2.2.1,
   (degenerate_station_set_degrades_gracefully
      [⟨5, 6, none, none, "Af"⟩, ⟨5, 6, none, none, "Af"⟩] 800 600 5 6
      (by simp) (by simp)).2.2.2.2 ⟨0, 0, 1⟩ true⟩

end ClimateVis
